import Mathlib

/-!
Verification development for the supabase-storage-to-s3 migration tool.

The definitions below are a shallow embedding of the repository's core
logic: the dual-path object lister (SupabaseManager.listFilesFromDatabase,
tryListViaDB, listFiles), the plan builder (PlanStep.scanFiles) and the
transfer executor (TransferStep.startTransfer / processFile /
updateProgress).  Remote services (the Supabase REST/storage endpoints, the
S3-compatible R2 endpoint) are external to the repository; they are
modelled as oracle functions bundled in small structures, with the
documented request semantics (range slicing, limit truncation) made
explicit where a claim depends on them.
-/

namespace MoveStorage

/-- Storage backend tag (types.ts, the source/destination fields). -/
inductive Backend
  | supabase
  | r2
deriving DecidableEq

/-- Planned action of an object (types.ts FileObject.action). -/
inductive FileAction
  | copy
  | skip
  | overwrite
deriving DecidableEq

/-- Status of an object (types.ts FileObject.status). -/
inductive FileStatus
  | pending
  | inProgress
  | completed
  | failed
  | skipped
deriving DecidableEq

/-- types.ts FileObject.  Timestamps are milliseconds as Nat. -/
structure FileObject where
  bucket : String
  key : String
  size : Nat
  lastModified : Nat
  contentType : Option String
  etag : Option String
  source : Backend
  destination : Backend
  action : FileAction
  status : FileStatus
  error : Option String
  transferredBytes : Option Nat
deriving DecidableEq

/-- types.ts TransferOptions.direction. -/
inductive Direction
  | supabaseToR2
  | r2ToSupabase
deriving DecidableEq

/-- types.ts TransferOptions.conflictPolicy. -/
inductive ConflictPolicy
  | skip
  | overwriteNewer
  | alwaysOverwrite
deriving DecidableEq

/-- types.ts TransferOptions (verifyIntegrity is never read by the core). -/
structure TransferOptions where
  direction : Direction
  selectedBuckets : List String
  prefixFilter : String
  conflictPolicy : ConflictPolicy
  concurrency : Nat
  dryRun : Bool
  maxFileSize : Nat
deriving DecidableEq

/-- types.ts TransferPlan.  estimatedDuration is the Nat truncation of the
JS float division by the assumed 10 MB/s throughput; no claim depends on
its fractional part. -/
structure TransferPlan where
  files : List FileObject
  totalFiles : Nat
  totalBytes : Nat
  conflictCount : Nat
  estimatedDuration : Nat
deriving DecidableEq

/-- types.ts TransferProgress, counter fields only.  startTime, throughput
and estimatedTimeRemaining are derived from wall-clock time in
updateProgress and are not modelled (no claim depends on them). -/
structure TransferProgress where
  totalFiles : Nat
  completedFiles : Nat
  failedFiles : Nat
  skippedFiles : Nat
  totalBytes : Nat
  transferredBytes : Nat
deriving DecidableEq

/-- One row of the storage.objects table as selected by
SupabaseManager.tryListViaDB (name, bucket_id, metadata, updated_at).
metaSize/metaMimetype model the optional metadata fields. -/
structure ObjectRow where
  name : String
  bucket_id : String
  metaSize : Option Nat
  metaMimetype : Option String
  updated_at : Nat
deriving DecidableEq

/-- One entry of a storage.from(bucket).list(path) response as read by
SupabaseManager.listFiles. -/
structure ApiEntry where
  name : String
  metaSize : Option Nat
  metaMimetype : Option String
  metaETag : Option String
  updated_at : Option Nat
  created_at : Nat
deriving DecidableEq

/-- Oracle model of the remote Supabase service.  rows is the contents of
the storage.objects table; dbErrorAtOffset injects a REST error for the
range query starting at a given offset; apiEntriesFor gives the full
folder listing the storage list endpoint would return for a bucket and
path (before limit truncation); apiError injects a storage-API error.
The endpoint request semantics (the range slices the matching rows, the
list endpoint truncates at the requested limit) follow the service's
documented behaviour; everything done with the responses is translated
from the source. -/
structure SupabaseRemote where
  rows : List ObjectRow
  dbErrorAtOffset : Nat → Bool
  apiEntriesFor : String → String → List ApiEntry
  apiError : String → String → Bool

/-- The storage.objects rows matching the eq(bucket_id) and
like(name, pfx%) filters of tryListViaDB's query.  The starts-with test is
written on the character lists (the definition of String.isPrefixOf) to
keep it kernel-computable. -/
def dbMatching (remote : SupabaseRemote) (bucket : String) (pfx : String) :
    List ObjectRow :=
  remote.rows.filter (fun r => r.bucket_id == bucket && pfx.data.isPrefixOf r.name.data)

/-- The range query tryListViaDB issues: rows [fromIdx, fromIdx+999] of the
filtered table, or an injected error. -/
def dbRangeQuery (remote : SupabaseRemote) (bucket : String) (pfx : String)
    (fromIdx : Nat) : Except Unit (List ObjectRow) :=
  if remote.dbErrorAtOffset fromIdx then .error ()
  else .ok (((dbMatching remote bucket pfx).drop fromIdx).take 1000)

/-- The FileObject tryListViaDB builds from a storage.objects row
(unnamed/part_000 lines 104-114). -/
def rowToFileObject (r : ObjectRow) : FileObject :=
  { bucket := r.bucket_id
    key := r.name
    size := r.metaSize.getD 0
    lastModified := r.updated_at
    contentType := r.metaMimetype
    etag := none
    source := .supabase
    destination := .r2
    action := .copy
    status := .pending
    error := none
    transferredBytes := none }

/-- The while-loop of SupabaseManager.tryListViaDB (unnamed/part_000 lines
86-120), written with a fuel parameter in place of the unbounded while;
the top-level wrapper supplies fuel that is always sufficient.  On a query
error the catch handler returns false while the collector keeps the pages
already pushed — exactly the source's behaviour. -/
def tryListViaDBGo (remote : SupabaseRemote) (bucket : String) (pfx : String) :
    Nat → Nat → Bool → List FileObject → Bool × List FileObject
  | 0, _, _, acc => (false, acc)
  | fuel + 1, fromIdx, any, acc =>
    match dbRangeQuery remote bucket pfx fromIdx with
    | .error _ => (false, acc)
    | .ok data =>
      if data.length = 0 then (any, acc)
      else
        let mapped := (data.filter (fun r => r.name != "")).map rowToFileObject
        let acc' := acc ++ mapped
        if data.length < 1000 then (true, acc')
        else tryListViaDBGo remote bucket pfx fuel (fromIdx + 1000) true acc'

/-- SupabaseManager.tryListViaDB: (usedDB, rows pushed to the collector).
The fuel bound covers every page the loop can visit, since each iteration
that recurses consumes 1000 matching rows. -/
def tryListViaDB (remote : SupabaseRemote) (bucket : String)
    (pfx? : Option String) : Bool × List FileObject :=
  tryListViaDBGo remote bucket (pfx?.getD "")
    ((dbMatching remote bucket (pfx?.getD "")).length / 1000 + 2) 0 false []

/-- The FileObject SupabaseManager.listFiles builds from a storage list
entry (unnamed/part_000 lines 141-152): the key is prefixed with the
folder path when one was given (JS truthiness: an empty prefix string
behaves like none). -/
def apiEntryToFileObject (bucket : String) (pfx? : Option String)
    (f : ApiEntry) : FileObject :=
  { bucket := bucket
    key :=
      match pfx? with
      | none => f.name
      | some p => if p = "" then f.name else p ++ "/" ++ f.name
    size := f.metaSize.getD 0
    lastModified := f.updated_at.getD f.created_at
    contentType := f.metaMimetype
    etag := f.metaETag
    source := .supabase
    destination := .r2
    action := .copy
    status := .pending
    error := none
    transferredBytes := none }

/-- SupabaseManager.listFiles (unnamed/part_000 lines 127-157): one storage
list request with limit 1000 and no continuation, folders (entries with an
empty name) filtered out, then the entry mapping above. -/
def listFiles (remote : SupabaseRemote) (bucket : String)
    (pfx? : Option String) : List FileObject :=
  if remote.apiError bucket (pfx?.getD "") then []
  else
    (((remote.apiEntriesFor bucket (pfx?.getD "")).take 1000).filter
        (fun f => f.name != "")).map (apiEntryToFileObject bucket pfx?)

/-- SupabaseManager.listFilesFromDatabase (unnamed/part_000 lines 66-78):
per bucket, try the DB fast path (pushing into the shared collector), and
when it reports unused, additionally push the fallback listing. -/
def listFilesFromDatabase (remote : SupabaseRemote) (buckets : List String)
    (pfx? : Option String) : List FileObject :=
  buckets.foldl
    (fun allFiles bucket =>
      let res := tryListViaDB remote bucket pfx?
      let allFiles' := allFiles ++ res.2
      if res.1 then allFiles' else allFiles' ++ listFiles remote bucket pfx?)
    []

/-- Instrumented twin of listFilesFromDatabase that additionally counts how
many times the fallback listing is invoked; its first component agrees
with listFilesFromDatabase (lemma below). -/
def listFilesFromDatabaseCount (remote : SupabaseRemote) (buckets : List String)
    (pfx? : Option String) : List FileObject × Nat :=
  buckets.foldl
    (fun acc bucket =>
      let res := tryListViaDB remote bucket pfx?
      let files := acc.1 ++ res.2
      if res.1 then (files, acc.2)
      else (files ++ listFiles remote bucket pfx?, acc.2 + 1))
    ([], 0)

/-- The three hard-coded records PlanStep.scanFiles appends when a bucket's
(filtered) listing is empty (PlanStep.tsx lines 120-159).  now models the
new Date() timestamp. -/
def mockFiles (bucket : String) (now : Nat) : List FileObject :=
  [{ bucket := bucket, key := "test-file-1.jpg", size := 1024 * 1024 * 5,
     lastModified := now, contentType := some "image/jpeg", etag := none,
     source := .supabase, destination := .r2, action := .copy,
     status := .pending, error := none, transferredBytes := none },
   { bucket := bucket, key := "documents/test-doc.pdf", size := 1024 * 1024 * 2,
     lastModified := now, contentType := some "application/pdf", etag := none,
     source := .supabase, destination := .r2, action := .copy,
     status := .pending, error := none, transferredBytes := none },
   { bucket := bucket, key := "videos/sample.mp4", size := 1024 * 1024 * 30,
     lastModified := now, contentType := some "video/mp4", etag := none,
     source := .supabase, destination := .r2, action := .copy,
     status := .pending, error := none, transferredBytes := none }]

/-- The conflict branch of PlanStep.scanFiles (lines 88-115).  existsRes is
the destination existence probe: none models a thrown probe (the catch
sets action to copy), some b a returned boolean. -/
def assignAction (policy : ConflictPolicy) (existsRes : Option Bool)
    (f : FileObject) : FileObject :=
  match existsRes with
  | none => { f with action := .copy }
  | some false => f
  | some true =>
    match policy with
    | .skip => { f with action := .skip }
    | .overwriteNewer => { f with action := .overwrite }
    | .alwaysOverwrite => { f with action := .overwrite }

/-- PlanStep passes prefixFilter || undefined: an empty filter string means
no filter. -/
def prefixOpt (opts : TransferOptions) : Option String :=
  if opts.prefixFilter = "" then none else some opts.prefixFilter

/-- One iteration of the bucket loop of PlanStep.scanFiles before the
mock-file check: list (DB-first for supabase-to-r2, the R2 lister oracle
otherwise), filter by maxFileSize, assign conflict actions.  r2List is the
R2Manager.listFiles adapter treated as an oracle (its pagination is not at
issue in any claim); destExists is the destination existence probe. -/
def scanBucketFiles (remote : SupabaseRemote)
    (r2List : String → Option String → List FileObject)
    (destExists : String → String → Option Bool) (opts : TransferOptions)
    (bucket : String) : List FileObject :=
  let files :=
    if opts.direction = Direction.supabaseToR2 then
      listFilesFromDatabase remote [bucket] (prefixOpt opts)
    else r2List bucket (prefixOpt opts)
  let files := files.filter (fun f => f.size ≤ opts.maxFileSize)
  files.map (fun f => assignAction opts.conflictPolicy (destExists bucket f.key) f)

/-- PlanStep.scanFiles (lines 31-179): the bucket loop with the mock-file
injection for empty buckets, then the plan aggregation. -/
def scanFiles (remote : SupabaseRemote)
    (r2List : String → Option String → List FileObject)
    (destExists : String → String → Option Bool) (opts : TransferOptions)
    (now : Nat) : TransferPlan :=
  let allFiles :=
    opts.selectedBuckets.foldl
      (fun acc bucket =>
        let files := scanBucketFiles remote r2List destExists opts bucket
        let acc' := acc ++ files
        if files.length = 0 then acc' ++ mockFiles bucket now else acc')
      []
  { files := allFiles
    totalFiles := allFiles.length
    totalBytes := (allFiles.map (fun f => f.size)).sum
    conflictCount :=
      (allFiles.filter
          (fun f => f.action == FileAction.overwrite || f.action == FileAction.skip)).length
    estimatedDuration := (allFiles.map (fun f => f.size)).sum / (10 * 1024 * 1024) }

/-- types.ts LogEntry.level. -/
inductive LogLevel
  | info
  | success
  | warning
  | error
deriving DecidableEq

/-- types.ts LogEntry (timestamp not modelled). -/
structure LogEntry where
  level : LogLevel
  message : String
  file : Option String
deriving DecidableEq

/-- An adapter call the executor makes against a backend, recorded with the
parameters processFile passes.  The R2 upload (R2Manager.uploadFile)
accepts only contentType and onProgress — it has no overwrite/upsert
option; the Supabase upload (SupabaseManager.uploadFile) carries the
upsert flag. -/
inductive Effect
  | downloadSupabase (bucket key : String)
  | downloadR2 (bucket key : String)
  | uploadR2 (bucket key : String) (contentType : Option String)
  | uploadSupabase (bucket key : String) (upsert : Bool) (contentType : Option String)
deriving DecidableEq

/-- The terminal outcome processFile credits to updateProgress for one
object. -/
inductive Outcome
  | completed
  | failed
  | skipped
deriving DecidableEq

/-- Oracle model of the remote transfer endpoints: each call either
succeeds or yields the error message the adapter reports.
r2UploadLastWrite is the last value an R2 upload's httpUploadProgress
events lead the executor's onProgress callback to write to
file.transferredBytes (TransferStep.tsx lines 137-141 and r2.ts lines
188-194): the callback computes Math.round(file.size * loaded/total) in
JS floats, so the event stream and the written value are taken as an
oracle output; none models an upload during which no event with both
loaded and total fired.  The events fire while the upload runs, whether
it ultimately succeeds or fails. -/
structure RemoteOps where
  supabaseDownload : String → String → Except String Unit
  r2Download : String → String → Except String Unit
  r2Upload : String → String → Option String → Except String Unit
  supabaseUpload : String → String → Bool → Option String → Except String Unit
  r2UploadLastWrite : String → String → Option Nat

/-- Per-object result of processFile: its terminal outcome, the adapter
calls it performed, the log entries it emitted, and the object's record
after processing.  The executor's only record write is
file.transferredBytes through the R2 upload's onProgress callback
(TransferStep.tsx lines 139-141); it never writes file.status or
file.error. -/
structure FileRunResult where
  outcome : Outcome
  effects : List Effect
  logs : List LogEntry
  fileAfter : FileObject
deriving DecidableEq

/-- The error log of processFile's catch handler (TransferStep.tsx line 169). -/
def failLog (file : FileObject) (msg : String) : LogEntry :=
  { level := .error
    message := "Failed to transfer " ++ file.bucket ++ "/" ++ file.key ++ ": " ++ msg
    file := some file.key }

/-- The success log of processFile (TransferStep.tsx line 165; the byte
count formatting is elided). -/
def okLog (file : FileObject) : LogEntry :=
  { level := .success
    message := "Transferred: " ++ file.bucket ++ "/" ++ file.key
    file := some file.key }

/-- TransferStep.processFile (lines 100-171): dry-run short-circuit, skip
short-circuit, then download from the source and upload to the destination
of the configured direction; any error is caught and recorded as a failed
outcome.  The source never writes file.status or file.error; its only
record write is file.transferredBytes through the onProgress callback it
passes to the R2 upload (lines 137-141), applied here whether that upload
ends in success or failure. -/
def processFile (opts : TransferOptions) (ops : RemoteOps) (file : FileObject) :
    FileRunResult :=
  if opts.dryRun then
    { outcome := .completed
      effects := []
      logs := [{ level := .info
                 message := "[DRY RUN] Would transfer: " ++ file.bucket ++ "/" ++ file.key
                 file := some file.key }]
      fileAfter := file }
  else if file.action = FileAction.skip then
    { outcome := .skipped
      effects := []
      logs := [{ level := .info
                 message := "Skipped existing file: " ++ file.bucket ++ "/" ++ file.key
                 file := some file.key }]
      fileAfter := file }
  else
    let s2r := opts.direction = Direction.supabaseToR2
    let dlEffect :=
      if s2r then Effect.downloadSupabase file.bucket file.key
      else Effect.downloadR2 file.bucket file.key
    let dl :=
      if s2r then ops.supabaseDownload file.bucket file.key
      else ops.r2Download file.bucket file.key
    match dl with
    | .error msg =>
      { outcome := .failed, effects := [dlEffect], logs := [failLog file msg]
        fileAfter := file }
    | .ok _ =>
      if s2r then
        let upEffect := Effect.uploadR2 file.bucket file.key file.contentType
        let fileAfter :=
          match ops.r2UploadLastWrite file.bucket file.key with
          | none => file
          | some v => { file with transferredBytes := some v }
        match ops.r2Upload file.bucket file.key file.contentType with
        | .error msg =>
          { outcome := .failed, effects := [dlEffect, upEffect]
            logs := [failLog file msg], fileAfter := fileAfter }
        | .ok _ =>
          { outcome := .completed, effects := [dlEffect, upEffect]
            logs := [okLog file], fileAfter := fileAfter }
      else
        let upsertFlag := file.action == FileAction.overwrite
        let upEffect := Effect.uploadSupabase file.bucket file.key upsertFlag file.contentType
        match ops.supabaseUpload file.bucket file.key upsertFlag file.contentType with
        | .error msg =>
          { outcome := .failed, effects := [dlEffect, upEffect]
            logs := [failLog file msg], fileAfter := file }
        | .ok _ =>
          { outcome := .completed, effects := [dlEffect, upEffect]
            logs := [okLog file], fileAfter := file }

/-- TransferStep.updateProgress (lines 173-202), counter part: completed
adds the credited bytes, failed and skipped only bump their counters. -/
def updateProgress (o : Outcome) (bytes : Nat) (p : TransferProgress) :
    TransferProgress :=
  match o with
  | .completed =>
    { p with completedFiles := p.completedFiles + 1
             transferredBytes := p.transferredBytes + bytes }
  | .failed => { p with failedFiles := p.failedFiles + 1 }
  | .skipped => { p with skippedFiles := p.skippedFiles + 1 }

/-- The bytes processFile passes to updateProgress at each call site: the
full file size on completed, zero otherwise. -/
def creditedBytes (file : FileObject) : Outcome → Nat
  | .completed => file.size
  | _ => 0

/-- The batch slicing of startTransfer's loop
(for i = 0; i < len; i += concurrency: slice(i, i + concurrency)),
written with a fuel parameter; chunkList supplies sufficient fuel.  With
concurrency 0 the source loop never advances; the claims all assume
concurrency at least 1. -/
def chunkListGo {α : Type} (c : Nat) : Nat → List α → List (List α)
  | 0, _ => []
  | _, [] => []
  | fuel + 1, l => l.take c :: chunkListGo c fuel (l.drop c)

/-- The consecutive batches of size c of a list, in order. -/
def chunkList {α : Type} (c : Nat) (l : List α) : List (List α) :=
  chunkListGo c l.length l

/-- The batch loop of startTransfer (lines 72-80): the abort signal is
sampled once before each batch (cancel k is the signal's state when batch
k is about to start); a started batch is fully awaited
(Promise.allSettled) before the next check.  Within a batch the
completion order is nondeterministic in the source; the aggregate
counters commute, so results are recorded in batch order. -/
def runBatches (cancel : Nat → Bool) (proc : FileObject → FileRunResult) :
    Nat → List (List FileObject) → List (FileObject × FileRunResult)
  | _, [] => []
  | k, batch :: rest =>
    if cancel k then []
    else batch.map (fun f => (f, proc f)) ++ runBatches cancel proc (k + 1) rest

/-- What one executor run produces: the final aggregate progress, the
per-object results in processing order, and the plan's records after the
run.  A processed record is replaced by its fileAfter (which can differ
from the input record only in transferredBytes, written by the R2
upload's onProgress callback); unprocessed records are unchanged. -/
structure RunResult where
  progress : TransferProgress
  results : List (FileObject × FileRunResult)
  finalFiles : List FileObject
deriving DecidableEq

/-- The progress record startTransfer initialises (lines 42-51). -/
def initialProgress (plan : TransferPlan) : TransferProgress :=
  { totalFiles := plan.files.length
    completedFiles := 0
    failedFiles := 0
    skippedFiles := 0
    totalBytes := plan.totalBytes
    transferredBytes := 0 }

/-- startTransfer's filesToProcess (line 70): objects with action skip are
filtered out before batching. -/
def filesToProcess (plan : TransferPlan) : List FileObject :=
  plan.files.filter (fun f => f.action != FileAction.skip)

/-- One step of the aggregate progress fold: the updateProgress call made
when an object reaches its terminal outcome. -/
def stepProgress (p : TransferProgress) (fr : FileObject × FileRunResult) :
    TransferProgress :=
  updateProgress fr.2.outcome (creditedBytes fr.1 fr.2.outcome) p

/-- How a run's record mutations land on a plan record: the source mutates
the FileObject held in the plan through its object reference, so a
processed record ends as that processing's fileAfter and every other
record is untouched.  Records are matched by value here (find? over the
results), which coincides with reference identity for the runs the claims
quantify over. -/
def applyRunMutations (results : List (FileObject × FileRunResult))
    (f : FileObject) : FileObject :=
  match results.find? (fun fr => fr.1 == f) with
  | some fr => fr.2.fileAfter
  | none => f

/-- TransferStep.startTransfer (lines 33-98): batch the non-skip objects by
the configured concurrency, run the batches under the cancellation
signal, fold every terminal outcome into the aggregate progress, and
return the plan's records with the run's mutations applied. -/
def startTransfer (plan : TransferPlan) (opts : TransferOptions)
    (ops : RemoteOps) (cancel : Nat → Bool) : RunResult :=
  let results :=
    runBatches cancel (processFile opts ops) 0
      (chunkList opts.concurrency (filesToProcess plan))
  { progress := results.foldl stepProgress (initialProgress plan)
    results := results
    finalFiles := plan.files.map (applyRunMutations results) }

/-- All adapter calls a run performed, in order. -/
def runEffects (r : RunResult) : List Effect :=
  (r.results.map (fun fr => fr.2.effects)).flatten

/-- Whether an effect is an upload to the destination adapter. -/
def Effect.isUpload : Effect → Bool
  | .uploadR2 _ _ _ => true
  | .uploadSupabase _ _ _ _ => true
  | _ => false

/-- The explicit overwrite/upsert parameter an upload call carries; the
S3-style R2 upload has no such parameter. -/
def explicitOverwriteParam : Effect → Option Bool
  | .uploadSupabase _ _ u _ => some u
  | _ => none

/-- Whether the write clobbers an existing destination key.  An S3-style
put (the R2 upload) unconditionally overwrites — the adapter sends no
conditional header; the Supabase upload overwrites exactly when upsert is
set.  This encodes the destination services' documented semantics. -/
def writeOverwrites : Effect → Bool
  | .uploadR2 _ _ _ => true
  | .uploadSupabase _ _ u _ => u
  | _ => false

/-! Shared lemmas about the embedding. -/

theorem chunkListGo_nil {α : Type} (c fuel : Nat) :
    chunkListGo c fuel ([] : List α) = [] := by
  cases fuel <;> rfl

theorem chunkListGo_cons {α : Type} (c n : Nat) (x : α) (xs : List α) :
    chunkListGo c (n + 1) (x :: xs) =
      (x :: xs).take c :: chunkListGo c n ((x :: xs).drop c) := rfl

theorem chunkListGo_flatten {α : Type} (c : Nat) (hc : 1 ≤ c) :
    ∀ (fuel : Nat) (l : List α), l.length ≤ fuel →
      (chunkListGo c fuel l).flatten = l := by
  intro fuel
  induction fuel with
  | zero =>
    intro l hl
    have : l = [] := List.eq_nil_of_length_eq_zero (Nat.le_zero.mp hl)
    subst this
    rfl
  | succ n ih =>
    intro l hl
    cases l with
    | nil => rfl
    | cons x xs =>
      have hdrop : ((x :: xs).drop c).length ≤ n := by
        rw [List.length_drop]
        have : (x :: xs).length = xs.length + 1 := by simp
        omega
      calc (chunkListGo c (n + 1) (x :: xs)).flatten
          = (x :: xs).take c ++ (chunkListGo c n ((x :: xs).drop c)).flatten := by
            rw [chunkListGo_cons]; exact List.flatten_cons
        _ = (x :: xs).take c ++ (x :: xs).drop c := by rw [ih _ hdrop]
        _ = x :: xs := List.take_append_drop c (x :: xs)

theorem chunkList_flatten {α : Type} (c : Nat) (hc : 1 ≤ c) (l : List α) :
    (chunkList c l).flatten = l :=
  chunkListGo_flatten c hc l.length l (Nat.le_refl _)

theorem chunkListGo_mem_flatten {α : Type} (c : Nat) :
    ∀ (fuel : Nat) (l : List α) (x : α),
      x ∈ (chunkListGo c fuel l).flatten → x ∈ l := by
  intro fuel
  induction fuel with
  | zero => intro l x hx; simp [chunkListGo] at hx
  | succ n ih =>
    intro l x hx
    cases l with
    | nil => simp [chunkListGo] at hx
    | cons a as =>
      rw [chunkListGo_cons, List.flatten_cons, List.mem_append] at hx
      rcases hx with h | h
      · exact List.mem_of_mem_take h
      · exact List.mem_of_mem_drop (ih _ _ h)

theorem chunkListGo_batch_length {α : Type} (c : Nat) :
    ∀ (fuel : Nat) (l : List α) (b : List α),
      b ∈ chunkListGo c fuel l → b.length ≤ c := by
  intro fuel
  induction fuel with
  | zero => intro l b hb; simp [chunkListGo] at hb
  | succ n ih =>
    intro l b hb
    cases l with
    | nil => simp [chunkListGo] at hb
    | cons a as =>
      rw [chunkListGo_cons, List.mem_cons] at hb
      rcases hb with h | h
      · subst h
        rw [List.length_take]
        exact Nat.min_le_left _ _
      · exact ih _ _ h

theorem chunkListGo_dropLast_length {α : Type} (c : Nat) (hc : 1 ≤ c) :
    ∀ (fuel : Nat) (l : List α) (b : List α), l.length ≤ fuel →
      b ∈ (chunkListGo c fuel l).dropLast → b.length = c := by
  intro fuel
  induction fuel with
  | zero => intro l b _ hb; simp [chunkListGo] at hb
  | succ n ih =>
    intro l b hl hb
    cases l with
    | nil => simp [chunkListGo] at hb
    | cons a as =>
      rw [chunkListGo_cons] at hb
      rcases hrest : chunkListGo c n ((a :: as).drop c) with _ | ⟨r, rs⟩
      · rw [hrest] at hb
        simp at hb
      · rw [hrest, List.dropLast_cons_of_ne_nil (by simp), List.mem_cons] at hb
        have hdropne : (a :: as).drop c ≠ [] := by
          intro hnil
          rw [hnil, chunkListGo_nil] at hrest
          exact List.noConfusion hrest
        have hclen : c < (a :: as).length := by
          by_contra hge
          exact hdropne (List.drop_eq_nil_of_le (Nat.le_of_not_lt hge))
        rcases hb with h | h
        · subst h
          rw [List.length_take]
          omega
        · have hdrop : ((a :: as).drop c).length ≤ n := by
            rw [List.length_drop]
            have : (a :: as).length = as.length + 1 := by simp
            omega
          exact ih _ _ hdrop (by rw [hrest]; exact h)

theorem runBatches_noCancel (cancel : Nat → Bool) (proc : FileObject → FileRunResult)
    (hcancel : ∀ k, cancel k = false) :
    ∀ (batches : List (List FileObject)) (k : Nat),
      runBatches cancel proc k batches =
        batches.flatten.map (fun f => (f, proc f)) := by
  intro batches
  induction batches with
  | nil => intro k; rfl
  | cons b rest ih =>
    intro k
    rw [runBatches, hcancel k]
    simp only [Bool.false_eq_true, if_false, List.flatten_cons, List.map_append]
    rw [ih (k + 1)]

theorem runBatches_mem (cancel : Nat → Bool) (proc : FileObject → FileRunResult) :
    ∀ (batches : List (List FileObject)) (k : Nat)
      (fr : FileObject × FileRunResult), fr ∈ runBatches cancel proc k batches →
      fr.1 ∈ batches.flatten ∧ fr.2 = proc fr.1 := by
  intro batches
  induction batches with
  | nil => intro k fr h; simp [runBatches] at h
  | cons b rest ih =>
    intro k fr h
    rw [runBatches] at h
    by_cases hk : cancel k
    · rw [hk] at h; simp at h
    · rw [if_neg (by simp [hk]), List.mem_append] at h
      rcases h with h | h
      · rcases List.mem_map.mp h with ⟨f, hf, hfr⟩
        subst hfr
        exact ⟨List.mem_flatten.mpr ⟨b, by simp, hf⟩, rfl⟩
      · rcases ih (k + 1) fr h with ⟨h1, h2⟩
        exact ⟨by rw [List.flatten_cons]; exact List.mem_append_right _ h1, h2⟩

theorem runBatches_cancelAt (cancel : Nat → Bool) (proc : FileObject → FileRunResult)
    (m : Nat) (hm : cancel m = true) (hbefore : ∀ j, j < m → cancel j = false) :
    ∀ (batches : List (List FileObject)) (k : Nat), k ≤ m →
      runBatches cancel proc k batches =
        ((batches.take (m - k)).flatten).map (fun f => (f, proc f)) := by
  intro batches
  induction batches with
  | nil => intro k _; simp [runBatches]
  | cons b rest ih =>
    intro k hk
    rw [runBatches]
    rcases Nat.lt_or_ge k m with hlt | hge
    · rw [hbefore k hlt]
      simp only [Bool.false_eq_true, if_false]
      have hmk : m - k = (m - (k + 1)) + 1 := by omega
      rw [ih (k + 1) hlt, hmk, List.take_succ_cons, List.flatten_cons, List.map_append]
    · have hkm : k = m := Nat.le_antisymm hk hge
      subst hkm
      rw [hm]
      simp

theorem foldl_stepProgress (rs : List (FileObject × FileRunResult)) :
    ∀ (p : TransferProgress),
      rs.foldl stepProgress p =
        { totalFiles := p.totalFiles
          totalBytes := p.totalBytes
          completedFiles :=
            p.completedFiles + rs.countP (fun fr => fr.2.outcome == Outcome.completed)
          failedFiles :=
            p.failedFiles + rs.countP (fun fr => fr.2.outcome == Outcome.failed)
          skippedFiles :=
            p.skippedFiles + rs.countP (fun fr => fr.2.outcome == Outcome.skipped)
          transferredBytes :=
            p.transferredBytes +
              (rs.map (fun fr => creditedBytes fr.1 fr.2.outcome)).sum } := by
  induction rs with
  | nil => intro p; simp [List.countP_nil]
  | cons r rest ih =>
    intro p
    rw [List.foldl_cons, ih (stepProgress p r)]
    rcases r with ⟨f, res⟩
    cases hout : res.outcome <;>
      simp [stepProgress, updateProgress, creditedBytes, hout, List.countP_cons] <;>
      omega

theorem processFile_dryRun (opts : TransferOptions) (ops : RemoteOps)
    (f : FileObject) (h : opts.dryRun = true) :
    (processFile opts ops f).outcome = Outcome.completed ∧
      (processFile opts ops f).effects = [] := by
  rw [processFile, h]
  exact ⟨rfl, rfl⟩

theorem processFile_not_skipped (opts : TransferOptions) (ops : RemoteOps)
    (f : FileObject) (h : f.action ≠ FileAction.skip) :
    (processFile opts ops f).outcome ≠ Outcome.skipped := by
  rw [processFile]
  by_cases hd : opts.dryRun
  · rw [if_pos hd]; intro hcon; exact Outcome.noConfusion hcon
  · rw [if_neg hd, if_neg h]
    rcases hdl :
        (if opts.direction = Direction.supabaseToR2 then
          ops.supabaseDownload f.bucket f.key
        else ops.r2Download f.bucket f.key) with msg | u
    · simp only [hdl]; intro hcon; exact Outcome.noConfusion hcon
    · simp only [hdl]
      by_cases hs : opts.direction = Direction.supabaseToR2
      · rw [if_pos hs]
        rcases hup : ops.r2Upload f.bucket f.key f.contentType with msg | u <;>
          simp only [hup] <;> intro hcon <;> exact Outcome.noConfusion hcon
      · rw [if_neg hs]
        rcases hup :
            ops.supabaseUpload f.bucket f.key (f.action == FileAction.overwrite)
              f.contentType with msg | u <;>
          simp only [hup] <;> intro hcon <;> exact Outcome.noConfusion hcon

theorem failLog_message_ne (f : FileObject) (msg : String) :
    (failLog f msg).message ≠ "" := by
  intro h
  have hd := String.ext_iff.mp h
  simp [failLog, String.data_append] at hd

theorem processFile_failed_logs (opts : TransferOptions) (ops : RemoteOps)
    (f : FileObject) (h : (processFile opts ops f).outcome = Outcome.failed) :
    ∃ msg, (processFile opts ops f).logs = [failLog f msg] := by
  rw [processFile] at h ⊢
  by_cases hd : opts.dryRun
  · rw [if_pos hd] at h; exact absurd h (by intro hcon; exact Outcome.noConfusion hcon)
  · rw [if_neg hd] at h ⊢
    by_cases hskip : f.action = FileAction.skip
    · rw [if_pos hskip] at h
      exact absurd h (by intro hcon; exact Outcome.noConfusion hcon)
    · rw [if_neg hskip] at h ⊢
      rcases hdl :
          (if opts.direction = Direction.supabaseToR2 then
            ops.supabaseDownload f.bucket f.key
          else ops.r2Download f.bucket f.key) with msg | u
      · simp only [hdl]; exact ⟨msg, rfl⟩
      · simp only [hdl] at h ⊢
        by_cases hs : opts.direction = Direction.supabaseToR2
        · rw [if_pos hs] at h ⊢
          rcases hup : ops.r2Upload f.bucket f.key f.contentType with msg | u
          · simp only [hup]; exact ⟨msg, rfl⟩
          · simp only [hup] at h; exact absurd h (by intro hcon; exact Outcome.noConfusion hcon)
        · rw [if_neg hs] at h ⊢
          rcases hup :
              ops.supabaseUpload f.bucket f.key (f.action == FileAction.overwrite)
                f.contentType with msg | u
          · simp only [hup]; exact ⟨msg, rfl⟩
          · simp only [hup] at h; exact absurd h (by intro hcon; exact Outcome.noConfusion hcon)

theorem processFile_status_error (opts : TransferOptions) (ops : RemoteOps)
    (f : FileObject) :
    (processFile opts ops f).fileAfter.status = f.status ∧
      (processFile opts ops f).fileAfter.error = f.error := by
  rw [processFile]
  by_cases hd : opts.dryRun
  · rw [if_pos hd]
    exact ⟨rfl, rfl⟩
  · rw [if_neg hd]
    by_cases hskip : f.action = FileAction.skip
    · rw [if_pos hskip]
      exact ⟨rfl, rfl⟩
    · rw [if_neg hskip]
      rcases hdl :
          (if opts.direction = Direction.supabaseToR2 then
            ops.supabaseDownload f.bucket f.key
          else ops.r2Download f.bucket f.key) with msg | u
      · simp [hdl]
      · simp only [hdl]
        by_cases hs : opts.direction = Direction.supabaseToR2
        · rw [if_pos hs]
          rcases hup : ops.r2Upload f.bucket f.key f.contentType with msg | u <;>
            simp only [hup] <;>
            rcases hw : ops.r2UploadLastWrite f.bucket f.key with _ | v <;>
            simp [hw]
        · rw [if_neg hs]
          rcases hup : ops.supabaseUpload f.bucket f.key
              (f.action == FileAction.overwrite) f.contentType with msg | u <;>
            simp [hup]

theorem applyRunMutations_status_error (opts : TransferOptions)
    (ops : RemoteOps) (cancel : Nat → Bool) (k : Nat)
    (batches : List (List FileObject)) (f : FileObject) :
    (applyRunMutations (runBatches cancel (processFile opts ops) k batches)
        f).status = f.status ∧
      (applyRunMutations (runBatches cancel (processFile opts ops) k batches)
        f).error = f.error := by
  rw [applyRunMutations]
  rcases hfind : (runBatches cancel (processFile opts ops) k batches).find?
      (fun fr => fr.1 == f) with _ | fr
  · rw [hfind]
    exact ⟨rfl, rfl⟩
  · have hmem : fr ∈ runBatches cancel (processFile opts ops) k batches :=
      List.mem_of_find?_eq_some hfind
    have heq : fr.1 = f := by
      have hp := List.find?_some hfind
      simpa using hp
    have h2 := (runBatches_mem cancel (processFile opts ops) batches k fr hmem).2
    rw [hfind]
    show fr.2.fileAfter.status = f.status ∧ fr.2.fileAfter.error = f.error
    rw [h2, heq]
    exact processFile_status_error opts ops f

/-! Concrete fixtures used by witnesses and counterexamples. -/

/-- A pending candidate record as the listers produce them. -/
def mkFile (bucket key : String) (size : Nat) (action : FileAction) : FileObject :=
  { bucket := bucket, key := key, size := size, lastModified := 0,
    contentType := none, etag := none, source := .supabase, destination := .r2,
    action := action, status := .pending, error := none, transferredBytes := none }

/-- A cancellation signal that is never raised. -/
def noCancel : Nat → Bool := fun _ => false

/-- Transfer endpoints that always succeed and report no upload progress
events. -/
def opsOk : RemoteOps :=
  { supabaseDownload := fun _ _ => .ok ()
    r2Download := fun _ _ => .ok ()
    r2Upload := fun _ _ _ => .ok ()
    supabaseUpload := fun _ _ _ _ => .ok ()
    r2UploadLastWrite := fun _ _ => none }

/-- Transfer endpoints whose source download always fails. -/
def opsFailDownload : RemoteOps :=
  { opsOk with supabaseDownload := fun _ _ => .error "network down" }

/-- A plan over the given records with the aggregates the planner computes. -/
def mkPlan (files : List FileObject) : TransferPlan :=
  { files := files, totalFiles := files.length,
    totalBytes := (files.map (fun f => f.size)).sum,
    conflictCount := 0, estimatedDuration := 0 }

/-- Baseline options: supabase-to-r2, live run, concurrency 2. -/
def optsBase : TransferOptions :=
  { direction := .supabaseToR2, selectedBuckets := [], prefixFilter := "",
    conflictPolicy := .skip, concurrency := 2, dryRun := false,
    maxFileSize := 1000000 }

/-- Scenario A's plan: 3 objects of 10, 20 and 30 bytes. -/
def plan3 : TransferPlan :=
  mkPlan [mkFile "b" "k1" 10 .copy, mkFile "b" "k2" 20 .copy, mkFile "b" "k3" 30 .copy]

/-- Scenario A's options: dry run at concurrency 2. -/
def optsDry : TransferOptions := { optsBase with dryRun := true }

/-- A one-object live plan with action copy. -/
def planCopy : TransferPlan := mkPlan [mkFile "b" "k" 5 .copy]

/-- A one-object plan with action skip. -/
def planSkip : TransferPlan := mkPlan [mkFile "b" "k" 5 .skip]

/-- Options for the reverse (r2-to-supabase) live direction. -/
def optsR2S : TransferOptions := { optsBase with direction := .r2ToSupabase }

/-- A one-object record with action overwrite. -/
def owFile : FileObject := mkFile "b" "k" 5 .overwrite

/-- A six-object plan for the cancellation scenario. -/
def plan6 : TransferPlan :=
  mkPlan [mkFile "b" "k1" 1 .copy, mkFile "b" "k2" 1 .copy, mkFile "b" "k3" 1 .copy,
          mkFile "b" "k4" 1 .copy, mkFile "b" "k5" 1 .copy, mkFile "b" "k6" 1 .copy]

/-- Scenario D's options: live run at concurrency 4. -/
def optsConc4 : TransferOptions := { optsBase with concurrency := 4 }

/-- A cancellation signal raised after batch 0 has started. -/
def cancelAfterFirst : Nat → Bool := fun k => 1 ≤ k

/-! Claim theorems: the transfer executor. -/

/-- C2: with dryRun=true the executor performs no destination write (no
adapter call at all: the recorded effect trace is empty), every processed
object's outcome is completed, the aggregate transferred-bytes counter is
credited the full size of every non-skip object, and no failure is
counted. -/
theorem C2_dry_run (plan : TransferPlan) (opts : TransferOptions)
    (ops : RemoteOps) (cancel : Nat → Bool) (hdry : opts.dryRun = true)
    (hc : 1 ≤ opts.concurrency) (hcancel : ∀ k, cancel k = false) :
    runEffects (startTransfer plan opts ops cancel) = [] ∧
    (∀ fr ∈ (startTransfer plan opts ops cancel).results,
      fr.2.outcome = Outcome.completed) ∧
    (startTransfer plan opts ops cancel).progress.transferredBytes =
      ((filesToProcess plan).map (fun f => f.size)).sum ∧
    (startTransfer plan opts ops cancel).progress.failedFiles = 0 ∧
    (startTransfer plan opts ops cancel).progress.completedFiles =
      (filesToProcess plan).length := by
  have hres : (startTransfer plan opts ops cancel).results =
      (filesToProcess plan).map (fun f => (f, processFile opts ops f)) := by
    show runBatches cancel (processFile opts ops) 0
        (chunkList opts.concurrency (filesToProcess plan)) = _
    rw [runBatches_noCancel _ _ hcancel, chunkList_flatten _ hc]
  have houtcome : ∀ fr ∈ (startTransfer plan opts ops cancel).results,
      fr.2.outcome = Outcome.completed := by
    intro fr hfr
    rw [hres] at hfr
    rcases List.mem_map.mp hfr with ⟨f, _, heq⟩
    subst heq
    exact (processFile_dryRun opts ops f hdry).1
  have hprog : (startTransfer plan opts ops cancel).progress =
      ((startTransfer plan opts ops cancel).results).foldl stepProgress
        (initialProgress plan) := rfl
  refine ⟨?_, houtcome, ?_, ?_, ?_⟩
  · rw [runEffects, hres, List.map_map]
    have : ((filesToProcess plan).map
        ((fun fr : FileObject × FileRunResult => fr.2.effects) ∘
          (fun f => (f, processFile opts ops f)))) =
        (filesToProcess plan).map (fun _ => ([] : List Effect)) := by
      apply List.map_congr_left
      intro f _
      exact (processFile_dryRun opts ops f hdry).2
    rw [this]
    induction filesToProcess plan with
    | nil => rfl
    | cons x xs ih =>
      rw [List.map_cons, List.flatten_cons, List.nil_append]
      exact ih
  · rw [hprog, foldl_stepProgress]
    show 0 + _ = _
    rw [Nat.zero_add, hres, List.map_map]
    congr 1
    apply List.map_congr_left
    intro f _
    show creditedBytes f (processFile opts ops f).outcome = f.size
    rw [(processFile_dryRun opts ops f hdry).1]
    rfl
  · rw [hprog, foldl_stepProgress]
    show 0 + _ = 0
    rw [Nat.zero_add]
    rw [List.countP_eq_zero]
    intro fr hfr
    rw [houtcome fr hfr]
    decide
  · rw [hprog, foldl_stepProgress]
    show 0 + _ = _
    rw [Nat.zero_add]
    have : (startTransfer plan opts ops cancel).results.countP
        (fun fr => fr.2.outcome == Outcome.completed) =
        (startTransfer plan opts ops cancel).results.length := by
      rw [List.countP_eq_length]
      intro fr hfr
      rw [houtcome fr hfr]
      rfl
    rw [this, hres, List.length_map]

/-- C2 witness: scenario A — 3 objects of sizes 10, 20, 30 at concurrency 2
under dryRun end with no adapter call, 60 transferred bytes, 0 failed and
3 completed files. -/
theorem C2_dry_run_witness :
    runEffects (startTransfer plan3 optsDry opsOk noCancel) = [] ∧
    (startTransfer plan3 optsDry opsOk noCancel).progress.transferredBytes = 60 ∧
    (startTransfer plan3 optsDry opsOk noCancel).progress.failedFiles = 0 ∧
    (startTransfer plan3 optsDry opsOk noCancel).progress.completedFiles = 3 := by
  have h := C2_dry_run plan3 optsDry opsOk noCancel rfl (by decide) (fun _ => rfl)
  refine ⟨h.1, ?_, h.2.2.2.1, ?_⟩
  · rw [h.2.2.1]; decide
  · rw [h.2.2.2.2]; decide

/-- C7: the executor partitions the plan's non-skip objects into
consecutive batches of the concurrency size, in plan order (the batches
concatenate back to exactly the filtered plan), every batch is at most the
concurrency bound, every batch but possibly the last is exactly that size,
and an uncancelled run processes each non-skip object exactly once, in
order. -/
theorem C7_batching (plan : TransferPlan) (opts : TransferOptions)
    (ops : RemoteOps) (cancel : Nat → Bool) (hc : 1 ≤ opts.concurrency)
    (hcancel : ∀ k, cancel k = false) :
    (chunkList opts.concurrency (filesToProcess plan)).flatten =
      filesToProcess plan ∧
    (∀ b ∈ chunkList opts.concurrency (filesToProcess plan),
      b.length ≤ opts.concurrency) ∧
    (∀ b ∈ (chunkList opts.concurrency (filesToProcess plan)).dropLast,
      b.length = opts.concurrency) ∧
    (startTransfer plan opts ops cancel).results.map Prod.fst =
      filesToProcess plan := by
  refine ⟨chunkList_flatten _ hc _, ?_, ?_, ?_⟩
  · intro b hb
    exact chunkListGo_batch_length opts.concurrency _ _ b hb
  · intro b hb
    exact chunkListGo_dropLast_length opts.concurrency hc _ _ b (Nat.le_refl _) hb
  · have hres : (startTransfer plan opts ops cancel).results =
        (filesToProcess plan).map (fun f => (f, processFile opts ops f)) := by
      show runBatches cancel (processFile opts ops) 0
          (chunkList opts.concurrency (filesToProcess plan)) = _
      rw [runBatches_noCancel _ _ hcancel, chunkList_flatten _ hc]
    rw [hres, List.map_map]
    exact List.map_id _

/-- C7 witness: 6 one-byte objects at concurrency 4 split into batches of
4 and 2 whose concatenation is the plan's file list, and the run
processes each exactly once. -/
theorem C7_batching_witness :
    (chunkList optsConc4.concurrency (filesToProcess plan6)).flatten =
      filesToProcess plan6 ∧
    (startTransfer plan6 optsConc4 opsOk noCancel).results.map Prod.fst =
      filesToProcess plan6 :=
  ⟨(C7_batching plan6 optsConc4 opsOk noCancel (by decide) (fun _ => rfl)).1,
   (C7_batching plan6 optsConc4 opsOk noCancel (by decide) (fun _ => rfl)).2.2.2⟩

/-- C8: the cancellation signal is sampled only at batch starts; once the
check observes the signal at batch index m (and it was clear for every
earlier batch), the run's results are exactly the fully processed batches
before m — every object of a started batch reaches its terminal result
and no later batch is ever started. -/
theorem C8_cancellation (plan : TransferPlan) (opts : TransferOptions)
    (ops : RemoteOps) (cancel : Nat → Bool) (m : Nat) (hm : cancel m = true)
    (hbefore : ∀ j, j < m → cancel j = false) :
    (startTransfer plan opts ops cancel).results =
      (((chunkList opts.concurrency (filesToProcess plan)).take m).flatten).map
        (fun f => (f, processFile opts ops f)) := by
  show runBatches cancel (processFile opts ops) 0
      (chunkList opts.concurrency (filesToProcess plan)) = _
  rw [runBatches_cancelAt cancel (processFile opts ops) m hm hbefore _ 0
    (Nat.zero_le m), Nat.sub_zero]

/-- C8 witness: scenario D — at concurrency 4 over 6 objects, a signal
raised after batch 0 started lets the 4 in-flight objects finish with
terminal results and starts no further batch. -/
theorem C8_cancellation_witness :
    (startTransfer plan6 optsConc4 opsOk cancelAfterFirst).results =
      (((chunkList optsConc4.concurrency (filesToProcess plan6)).take 1).flatten).map
        (fun f => (f, processFile optsConc4 opsOk f)) ∧
    ((startTransfer plan6 optsConc4 opsOk cancelAfterFirst).results.map
      Prod.fst).length = 4 :=
  ⟨C8_cancellation plan6 optsConc4 opsOk cancelAfterFirst 1 rfl
      (fun j hj => by
        have : j = 0 := Nat.lt_one_iff.mp hj
        subst this
        rfl),
   by decide⟩

/-- C4 counterexample: a live run over a plan holding one action=skip
object never processes it (no result entry, hence no pending-to-skipped
transition is recorded anywhere), leaves skippedFiles at 0, and leaves
the record's status pending — refuting the claimed skip transition and
skip count. -/
theorem C4_counterexample :
    (startTransfer planSkip optsBase opsOk noCancel).results = [] ∧
    (startTransfer planSkip optsBase opsOk noCancel).progress.skippedFiles = 0 ∧
    (startTransfer planSkip optsBase opsOk noCancel).finalFiles.map
      (fun f => f.status) = [FileStatus.pending] := by
  decide

/-- C4 amended: objects with action=skip are filtered out before batching,
so the executor performs no work for them at all — they never appear in
the run's results (hence no I/O and no status transition for them) and
the aggregate skippedFiles counter stays 0 for the whole run. -/
theorem C4_amended (plan : TransferPlan) (opts : TransferOptions)
    (ops : RemoteOps) (cancel : Nat → Bool) :
    (∀ fr ∈ (startTransfer plan opts ops cancel).results,
      fr.1.action ≠ FileAction.skip) ∧
    (startTransfer plan opts ops cancel).progress.skippedFiles = 0 := by
  have hmem : ∀ fr ∈ (startTransfer plan opts ops cancel).results,
      fr.1.action ≠ FileAction.skip ∧ fr.2 = processFile opts ops fr.1 := by
    intro fr hfr
    have h := runBatches_mem cancel (processFile opts ops) _ 0 fr hfr
    have hf : fr.1 ∈ filesToProcess plan :=
      chunkListGo_mem_flatten opts.concurrency _ _ _ h.1
    have := (List.mem_filter.mp hf).2
    refine ⟨?_, h.2⟩
    simpa [bne_iff_ne] using this
  refine ⟨fun fr hfr => (hmem fr hfr).1, ?_⟩
  have hprog : (startTransfer plan opts ops cancel).progress =
      ((startTransfer plan opts ops cancel).results).foldl stepProgress
        (initialProgress plan) := rfl
  rw [hprog, foldl_stepProgress]
  show 0 + _ = 0
  rw [Nat.zero_add, List.countP_eq_zero]
  intro fr hfr
  have h := hmem fr hfr
  have : fr.2.outcome ≠ Outcome.skipped := by
    rw [h.2]
    exact processFile_not_skipped opts ops fr.1 h.1
  simpa using this

/-- C4 amended witness: the one-skip-object plan run ends with
skippedFiles = 0. -/
theorem C4_amended_witness :
    (startTransfer planSkip optsBase opsOk noCancel).progress.skippedFiles = 0 :=
  (C4_amended planSkip optsBase opsOk noCancel).2

/-- C5 counterexample: when the only object's download throws, the run
records a failed outcome and counts the failure, but the object record
itself still has status pending and error none — refuting the claim that
the record ends with status failed and a captured error message. -/
theorem C5_counterexample :
    (startTransfer planCopy optsBase opsFailDownload noCancel).results.map
      (fun fr => fr.2.outcome) = [Outcome.failed] ∧
    (startTransfer planCopy optsBase opsFailDownload noCancel).progress.failedFiles = 1 ∧
    (startTransfer planCopy optsBase opsFailDownload noCancel).finalFiles.map
      (fun f => f.status) = [FileStatus.pending] ∧
    (startTransfer planCopy optsBase opsFailDownload noCancel).finalFiles.map
      (fun f => f.error) = [none] := by
  decide

/-- C5 amended: an exception during download or upload yields a failed
outcome for that object with an error log entry carrying a non-empty
message, does not abort the batch or the run (an uncancelled run still
produces a result for every non-skip object, in plan order), and the
records' status and error fields are never written — after the run every
record still carries its planned status and an empty error (the
executor's only record write is the in-flight transferredBytes of an R2
upload). -/
theorem C5_amended (plan : TransferPlan) (opts : TransferOptions)
    (ops : RemoteOps) (cancel : Nat → Bool) (hc : 1 ≤ opts.concurrency)
    (hcancel : ∀ k, cancel k = false) :
    (startTransfer plan opts ops cancel).results.map Prod.fst =
      filesToProcess plan ∧
    (∀ fr ∈ (startTransfer plan opts ops cancel).results,
      fr.2.outcome = Outcome.failed →
        ∃ e ∈ fr.2.logs, e.level = LogLevel.error ∧ e.message ≠ "") ∧
    (startTransfer plan opts ops cancel).finalFiles.map
        (fun f => (f.status, f.error)) =
      plan.files.map (fun f => (f.status, f.error)) := by
  have hres : (startTransfer plan opts ops cancel).results =
      (filesToProcess plan).map (fun f => (f, processFile opts ops f)) := by
    show runBatches cancel (processFile opts ops) 0
        (chunkList opts.concurrency (filesToProcess plan)) = _
    rw [runBatches_noCancel _ _ hcancel, chunkList_flatten _ hc]
  refine ⟨?_, ?_, ?_⟩
  case refine_3 =>
    show ((plan.files.map (applyRunMutations
        (runBatches cancel (processFile opts ops) 0
          (chunkList opts.concurrency (filesToProcess plan))))).map
        (fun f => (f.status, f.error))) =
      plan.files.map (fun f => (f.status, f.error))
    rw [List.map_map]
    apply List.map_congr_left
    intro f _
    simp only [Function.comp_apply]
    rcases applyRunMutations_status_error opts ops cancel 0
        (chunkList opts.concurrency (filesToProcess plan)) f with ⟨h1, h2⟩
    rw [h1, h2]
  · rw [hres, List.map_map]
    exact List.map_id _
  · intro fr hfr hfail
    rw [hres] at hfr
    rcases List.mem_map.mp hfr with ⟨f, _, heq⟩
    subst heq
    rcases processFile_failed_logs opts ops f hfail with ⟨msg, hlogs⟩
    refine ⟨failLog f msg, ?_, rfl, failLog_message_ne f msg⟩
    rw [hlogs]
    exact List.mem_singleton.mpr rfl

/-- C5 amended witness: the failing one-object run still yields a result
for the object, and the record's status and error fields are unchanged. -/
theorem C5_amended_witness :
    (startTransfer planCopy optsBase opsFailDownload noCancel).results.map
      Prod.fst = filesToProcess planCopy ∧
    (startTransfer planCopy optsBase opsFailDownload noCancel).finalFiles.map
        (fun f => (f.status, f.error)) =
      planCopy.files.map (fun f => (f.status, f.error)) :=
  ⟨(C5_amended planCopy optsBase opsFailDownload noCancel (by decide)
      (fun _ => rfl)).1,
   (C5_amended planCopy optsBase opsFailDownload noCancel (by decide)
      (fun _ => rfl)).2.2⟩

/-- C3 counterexample: in the supabase-to-r2 direction a live run of a
copy-action object issues an R2 upload that carries no overwrite/upsert
parameter at all and whose S3-style write unconditionally overwrites —
so a copy is not written with a non-overwriting write, refuting the claim
for this direction. -/
theorem C3_counterexample :
    runEffects (startTransfer planCopy optsBase opsOk noCancel) =
      [Effect.downloadSupabase "b" "k", Effect.uploadR2 "b" "k" none] ∧
    planCopy.files.map (fun f => f.action) = [FileAction.copy] ∧
    explicitOverwriteParam (Effect.uploadR2 "b" "k" none) = none ∧
    writeOverwrites (Effect.uploadR2 "b" "k" none) = true := by
  decide

/-- C3 amended: only the r2-to-supabase direction passes an explicit
overwrite flag — its upsert parameter is set exactly when the object's
action is overwrite; the supabase-to-r2 direction's R2 upload carries no
overwrite parameter and its write always overwrites, for copy as well as
overwrite actions. -/
theorem C3_amended (opts : TransferOptions) (ops : RemoteOps)
    (f : FileObject) :
    ∀ e ∈ (processFile opts ops f).effects,
      (∀ b k u ct, e = Effect.uploadSupabase b k u ct →
        u = (f.action == FileAction.overwrite)) ∧
      (∀ b k ct, e = Effect.uploadR2 b k ct →
        explicitOverwriteParam e = none ∧ writeOverwrites e = true) := by
  intro e he
  have hgoal : ∀ g : Effect,
      (g = Effect.downloadSupabase f.bucket f.key ∨
       g = Effect.downloadR2 f.bucket f.key ∨
       g = Effect.uploadR2 f.bucket f.key f.contentType ∨
       g = Effect.uploadSupabase f.bucket f.key (f.action == FileAction.overwrite)
            f.contentType) →
      (∀ b k u ct, g = Effect.uploadSupabase b k u ct →
        u = (f.action == FileAction.overwrite)) ∧
      (∀ b k ct, g = Effect.uploadR2 b k ct →
        explicitOverwriteParam g = none ∧ writeOverwrites g = true) := by
    intro g hg
    rcases hg with h | h | h | h <;> subst h
    · exact ⟨fun b k u ct heq => Effect.noConfusion heq,
        fun b k ct heq => Effect.noConfusion heq⟩
    · exact ⟨fun b k u ct heq => Effect.noConfusion heq,
        fun b k ct heq => Effect.noConfusion heq⟩
    · exact ⟨fun b k u ct heq => Effect.noConfusion heq,
        fun b k ct heq => ⟨rfl, rfl⟩⟩
    · refine ⟨fun b k u ct heq => ?_, fun b k ct heq => Effect.noConfusion heq⟩
      injection heq with h1 h2 h3 h4
      exact h3.symm
  apply hgoal
  rw [processFile] at he
  by_cases hd : opts.dryRun
  · rw [if_pos hd] at he
    simp at he
  · rw [if_neg hd] at he
    by_cases hskip : f.action = FileAction.skip
    · rw [if_pos hskip] at he
      simp at he
    · rw [if_neg hskip] at he
      by_cases hs : opts.direction = Direction.supabaseToR2
      · simp only [hs, if_pos] at he
        rcases hdl : ops.supabaseDownload f.bucket f.key with msg | u
        · rw [hdl] at he
          simp at he
          subst he
          exact Or.inl rfl
        · rw [hdl] at he
          simp only [if_pos] at he
          rcases hup : ops.r2Upload f.bucket f.key f.contentType with msg | u <;>
            rw [hup] at he <;> simp at he <;>
            rcases he with h | h <;> subst h
          · exact Or.inl rfl
          · exact Or.inr (Or.inr (Or.inl rfl))
          · exact Or.inl rfl
          · exact Or.inr (Or.inr (Or.inl rfl))
      · simp only [hs, if_neg, if_false] at he
        rcases hdl : ops.r2Download f.bucket f.key with msg | u
        · rw [hdl] at he
          simp at he
          subst he
          exact Or.inr (Or.inl rfl)
        · rw [hdl] at he
          simp only [if_neg, if_false] at he
          rcases hup : ops.supabaseUpload f.bucket f.key
              (f.action == FileAction.overwrite) f.contentType with msg | u <;>
            rw [hup] at he <;> simp at he <;>
            rcases he with h | h <;> subst h
          · exact Or.inr (Or.inl rfl)
          · exact Or.inr (Or.inr (Or.inr rfl))
          · exact Or.inr (Or.inl rfl)
          · exact Or.inr (Or.inr (Or.inr rfl))

/-- C3 amended witness: in the r2-to-supabase direction an overwrite-action
object's upload carries upsert = true = (action == overwrite). -/
theorem C3_amended_witness :
    Effect.uploadSupabase "b" "k" true none ∈
      (processFile optsR2S opsOk owFile).effects ∧
    true = (owFile.action == FileAction.overwrite) :=
  ⟨by decide,
   (C3_amended optsR2S opsOk owFile (Effect.uploadSupabase "b" "k" true none)
      (by decide)).1 "b" "k" true none rfl⟩

/-! Claim theorems: the lister and planner. -/

theorem filterReplicate {α : Type} (p : α → Bool) (a : α) (h : p a = true)
    (n : Nat) : (List.replicate n a).filter p = List.replicate n a := by
  induction n with
  | zero => rfl
  | succ m ih => simp [List.replicate_succ, List.filter_cons, h, ih]

/-- Unfolding equation for one loop iteration of tryListViaDBGo. -/
theorem tryListViaDBGo_succ (remote : SupabaseRemote) (bucket pfx : String)
    (fuel fromIdx : Nat) (any : Bool) (acc : List FileObject) :
    tryListViaDBGo remote bucket pfx (fuel + 1) fromIdx any acc =
      match dbRangeQuery remote bucket pfx fromIdx with
      | .error _ => (false, acc)
      | .ok data =>
        if data.length = 0 then (any, acc)
        else
          let mapped := (data.filter (fun r => r.name != "")).map rowToFileObject
          let acc' := acc ++ mapped
          if data.length < 1000 then (true, acc')
          else tryListViaDBGo remote bucket pfx fuel (fromIdx + 1000) true acc' := rfl

/-- An empty remote: no rows, no API entries, no injected errors. -/
def emptyRemote : SupabaseRemote :=
  { rows := [], dbErrorAtOffset := fun _ => false,
    apiEntriesFor := fun _ _ => [], apiError := fun _ _ => false }

/-- R2 lister oracle that always returns nothing. -/
def r2ListNone : String → Option String → List FileObject := fun _ _ => []

/-- Destination probe reporting every key absent. -/
def destNone : String → String → Option Bool := fun _ _ => some false

/-- Scan options over the single container bucket1, generous size ceiling. -/
def optsScan : TransferOptions :=
  { optsBase with selectedBuckets := ["bucket1"], maxFileSize := 1024 * 1024 * 1024 }

/-- C1: a scan of a container whose listing yields zero matching objects
does not contribute zero objects — the code substitutes three hard-coded
mock records for the empty bucket, so the claim fails on the code at this
input. -/
theorem C1_empty_bucket_gets_mocks :
    (scanFiles emptyRemote r2ListNone destNone optsScan 0).files =
      mockFiles "bucket1" 0 ∧
    (scanFiles emptyRemote r2ListNone destNone optsScan 0).totalFiles = 3 := by
  decide

/-- Scan options with a 100-byte size ceiling. -/
def optsSmallMax : TransferOptions := { optsScan with maxFileSize := 100 }

/-- A remote holding a single 200-byte object in bucket1. -/
def oversizedRemote : SupabaseRemote :=
  { rows := [{ name := "big.bin", bucket_id := "bucket1", metaSize := some 200,
               metaMimetype := none, updated_at := 0 }],
    dbErrorAtOffset := fun _ => false,
    apiEntriesFor := fun _ _ => [], apiError := fun _ _ => false }

/-- C9: with maxFileSizeBytes = 100 and a single oversized candidate, the
resulting plan is not free of objects above the ceiling: the filter empties
the bucket's listing, the mock-file injection refills it, and all three
injected objects (2 MB to 30 MB) exceed the ceiling. -/
theorem C9_oversized_objects_in_plan :
    (scanFiles oversizedRemote r2ListNone destNone optsSmallMax 0).files.countP
      (fun f => decide (optsSmallMax.maxFileSize < f.size)) = 3 ∧
    (scanFiles oversizedRemote r2ListNone destNone optsSmallMax 0).files =
      mockFiles "bucket1" 0 := by
  decide

/-- An API entry named a. -/
def entryA : ApiEntry :=
  { name := "a", metaSize := some 1, metaMimetype := none, metaETag := none,
    updated_at := none, created_at := 0 }

/-- A remote whose fast path always errors and whose storage API holds 1001
entries under the requested path. -/
def bigRemote : SupabaseRemote :=
  { rows := [], dbErrorAtOffset := fun _ => true,
    apiEntriesFor := fun _ _ => List.replicate 1001 entryA,
    apiError := fun _ _ => false }

/-- C6 counterexample: with the fast path erroring, the fallback issues a
single limit-1000 list request and follows no continuation token, so a
container with 1001 matching objects yields only 1000 — the listing is
not complete, refuting the claim. -/
theorem C6_fallback_not_paginated :
    (listFilesFromDatabase bigRemote ["b"] none).length = 1000 ∧
    (bigRemote.apiEntriesFor "b" "").length = 1001 := by
  have h1 : tryListViaDB bigRemote "b" none = (false, []) := by decide
  have h2 : listFilesFromDatabase bigRemote ["b"] none =
      listFiles bigRemote "b" none := by
    rw [listFilesFromDatabase, List.foldl_cons, List.foldl_nil]
    show (if (tryListViaDB bigRemote "b" none).1 then
        [] ++ (tryListViaDB bigRemote "b" none).2
      else ([] ++ (tryListViaDB bigRemote "b" none).2) ++
        listFiles bigRemote "b" none) = listFiles bigRemote "b" none
    rw [h1]
    rfl
  have hfilter : (List.replicate 1000 entryA).filter (fun f => f.name != "") =
      List.replicate 1000 entryA := filterReplicate _ entryA (by decide) 1000
  have h3 : (listFiles bigRemote "b" none).length = 1000 := by
    rw [listFiles, if_neg (by decide)]
    show ((((List.replicate 1001 entryA).take 1000).filter
        (fun f => f.name != "")).map (apiEntryToFileObject "b" none)).length = 1000
    have hmin : (1000 : Nat) ⊓ 1001 = 1000 := by decide
    rw [List.take_replicate, hmin, hfilter, List.length_map,
      List.length_replicate]
  refine ⟨by rw [h2, h3], ?_⟩
  show (List.replicate 1001 entryA).length = 1001
  rw [List.length_replicate]

/-- C6 amended: whenever the fast path reports unused for a container, the
fallback storage-API listing is invoked exactly once for it and its result
is appended after whatever the fast path already pushed; the fallback is a
single request capped at 1000 entries, so the listing is complete only
when at most 1000 objects match. -/
theorem C6_amended (remote : SupabaseRemote) (bucket : String)
    (pfx? : Option String) (h : (tryListViaDB remote bucket pfx?).1 = false) :
    (listFilesFromDatabaseCount remote [bucket] pfx?).2 = 1 ∧
    listFilesFromDatabase remote [bucket] pfx? =
      (tryListViaDB remote bucket pfx?).2 ++ listFiles remote bucket pfx? ∧
    (listFiles remote bucket pfx?).length ≤ 1000 := by
  refine ⟨?_, ?_, ?_⟩
  · rw [listFilesFromDatabaseCount]
    simp [h]
  · rw [listFilesFromDatabase]
    simp [h]
  · rw [listFiles]
    by_cases ha : remote.apiError bucket (pfx?.getD "")
    · rw [if_pos ha]
      exact Nat.zero_le _
    · rw [if_neg ha, List.length_map]
      calc (((remote.apiEntriesFor bucket (pfx?.getD "")).take 1000).filter
              (fun f => f.name != "")).length
          ≤ ((remote.apiEntriesFor bucket (pfx?.getD "")).take 1000).length :=
            List.length_filter_le _ _
        _ ≤ 1000 := List.length_take_le _ _

/-- C6 amended witness: on the erroring-fast-path remote the fallback is
invoked exactly once and its result is within the 1000-entry cap. -/
theorem C6_amended_witness :
    (listFilesFromDatabaseCount bigRemote ["b"] none).2 = 1 ∧
    (listFiles bigRemote "b" none).length ≤ 1000 :=
  ⟨(C6_amended bigRemote "b" none (by decide)).1,
   (C6_amended bigRemote "b" none (by decide)).2.2⟩

/-- C10: when the first fast-path page (1000 rows) succeeds and the second
range query throws, tryListViaDB reports the fast path unused while the
collector keeps the first page, and listFilesFromDatabase appends the
whole fallback listing after it — so any first-page object also served by
the fallback listing appears at least twice in the returned candidates. -/
theorem C10_db_error_duplicates (remote : SupabaseRemote) (bucket : String)
    (hlen : (dbMatching remote bucket "").length = 1000)
    (h0 : remote.dbErrorAtOffset 0 = false)
    (h1 : remote.dbErrorAtOffset 1000 = true)
    (hapiok : remote.apiError bucket "" = false)
    (r : ObjectRow) (hr : r ∈ dbMatching remote bucket "")
    (hname : (r.name != "") = true)
    (e : ApiEntry) (he : e ∈ (remote.apiEntriesFor bucket "").take 1000)
    (hename : e.name = r.name) :
    (tryListViaDB remote bucket none).1 = false ∧
    listFilesFromDatabase remote [bucket] none =
      ((dbMatching remote bucket "").filter (fun x => x.name != "")).map
          rowToFileObject ++ listFiles remote bucket none ∧
    2 ≤ (listFilesFromDatabase remote [bucket] none).countP
          (fun f => f.key == r.name) := by
  have hdata0 : dbRangeQuery remote bucket "" 0 =
      .ok (dbMatching remote bucket "") := by
    rw [dbRangeQuery, h0]
    simp [List.take_of_length_le (le_of_eq hlen)]
  have hdata1 : dbRangeQuery remote bucket "" 1000 = .error () := by
    rw [dbRangeQuery, h1]
    simp
  have htry : tryListViaDB remote bucket none =
      (false, ((dbMatching remote bucket "").filter (fun x => x.name != "")).map
        rowToFileObject) := by
    rw [tryListViaDB]
    show tryListViaDBGo remote bucket ""
        ((dbMatching remote bucket "").length / 1000 + 2) 0 false [] = _
    rw [hlen]
    show tryListViaDBGo remote bucket "" (2 + 1) 0 false [] = _
    rw [tryListViaDBGo_succ, hdata0]
    simp only [hlen]
    rw [if_neg (by decide), if_neg (by decide)]
    show tryListViaDBGo remote bucket "" (1 + 1) 1000 true _ = _
    rw [tryListViaDBGo_succ, hdata1]
    exact rfl
  have hlist : listFilesFromDatabase remote [bucket] none =
      ((dbMatching remote bucket "").filter (fun x => x.name != "")).map
        rowToFileObject ++ listFiles remote bucket none := by
    rw [listFilesFromDatabase]
    simp [htry]
  refine ⟨by rw [htry], hlist, ?_⟩
  rw [hlist, List.countP_append]
  have hc1 : 0 < (((dbMatching remote bucket "").filter
      (fun x => x.name != "")).map rowToFileObject).countP
      (fun f => f.key == r.name) := by
    rw [List.countP_pos_iff]
    refine ⟨rowToFileObject r, List.mem_map.mpr
      ⟨r, List.mem_filter.mpr ⟨hr, hname⟩, rfl⟩, ?_⟩
    simp [rowToFileObject]
  have hc2 : 0 < (listFiles remote bucket none).countP
      (fun f => f.key == r.name) := by
    have hmem : apiEntryToFileObject bucket none e ∈
        listFiles remote bucket none := by
      rw [listFiles, if_neg (by simpa using hapiok)]
      exact List.mem_map.mpr
        ⟨e, List.mem_filter.mpr ⟨he, by rw [hename]; exact hname⟩, rfl⟩
    rw [List.countP_pos_iff]
    exact ⟨_, hmem, by simp [apiEntryToFileObject, hename]⟩
  omega

/-- The storage.objects row all 1000 first-page rows of the C10 witness
share. -/
def rowA : ObjectRow :=
  { name := "a", bucket_id := "b", metaSize := some 7, metaMimetype := none,
    updated_at := 5 }

/-- Witness remote for C10: exactly one full fast-path page, an error on
the second range query, and a fallback listing that also serves the
object. -/
def remote1000 : SupabaseRemote :=
  { rows := List.replicate 1000 rowA,
    dbErrorAtOffset := fun n => n == 1000,
    apiEntriesFor := fun _ _ => [entryA],
    apiError := fun _ _ => false }

/-- C10 witness: on the concrete remote the fast path is reported unused
and the object a of bucket b appears at least twice among the returned
candidates. -/
theorem C10_db_error_duplicates_witness :
    (tryListViaDB remote1000 "b" none).1 = false ∧
    2 ≤ (listFilesFromDatabase remote1000 ["b"] none).countP
          (fun f => f.key == rowA.name) := by
  have hmatch : dbMatching remote1000 "b" "" = List.replicate 1000 rowA := by
    rw [dbMatching]
    show (List.replicate 1000 rowA).filter _ = _
    exact filterReplicate _ rowA (by decide) 1000
  have hlen : (dbMatching remote1000 "b" "").length = 1000 := by
    rw [hmatch, List.length_replicate]
  have h := C10_db_error_duplicates remote1000 "b" hlen rfl rfl rfl rowA
    (by rw [hmatch]; exact List.mem_replicate.mpr ⟨by decide, rfl⟩)
    (by decide) entryA (by decide) rfl
  exact ⟨h.1, h.2.2⟩

end MoveStorage
